import Mathlib

/-!
Verification of the batch MP3 trimmer (`trim_audio.py`).

Shallow embedding. An audio buffer is a list of per-millisecond frames
(`List Int`), so pydub's millisecond slicing `audio[:trim_duration]`
becomes `List.take trim_duration` and `len(audio)` (milliseconds) becomes
`List.length`. The filesystem is a map from paths to optional file
contents, contents being the decoded buffer (the codec round-trips
content). Failures injected by the outside world (corrupt file on decode,
I/O error on export, stat error) are modelled by boolean oracles in an
environment record; the encoded size of a buffer on disk is an opaque
function of the buffer supplied by the same environment.
-/

namespace TrimAudio

/-- `music_dir = "music"` — the fixed input directory. -/
def music_dir : String := "music"

/-- `trim_duration = 20 * 1000` milliseconds. -/
def trim_duration : Nat := 20 * 1000

/-- An in-memory audio buffer: one element per millisecond of audio. -/
abbrev Buffer := List Int

/-- The filesystem: path to optional file content (decoded buffer). -/
abbrev Disk := String → Option Buffer

/-- External-world behaviour during a run: which paths fail to decode
(corrupt data), which exports raise, which stat calls raise, and how many
bytes the codec writes for a given buffer. -/
structure Env where
  decodeFails : String → Bool
  exportFails : String → Bool
  statFails : String → Bool
  fileSizeBytes : Buffer → Nat

/-- `os.path.join(music_dir, filename)`. -/
def filepathOf (filename : String) : String := music_dir ++ "/" ++ filename

/-- Line 30: `filename.endswith(".mp3") and not filename.startswith("temp_")` —
case-sensitive suffix and prefix tests on the filename's characters. -/
def eligible (filename : String) : Bool :=
  (".mp3").data.isSuffixOf filename.data && !(("temp_").data.isPrefixOf filename.data)

/-- Line 43: `trimmed_audio = audio[:trim_duration]` — pydub slices by
milliseconds, yielding the first `trim_duration` ms (all of the audio if
it is shorter). -/
def trimBuffer (audio : Buffer) : Buffer := audio.take trim_duration

/-- What the per-file success path records (lines 39, 49, 53): original
duration, new duration (both in ms; the script prints them divided by
1000), and the value printed as the new file size, which the script
computes as `os.path.getsize(filepath) / 1024 / 1024`. -/
structure FileReport where
  originalDurationMs : Nat
  newDurationMs : Nat
  newSizeMB : ℚ
deriving DecidableEq

/-- Line 53: the size value the script records, `bytes / 1024 / 1024`. -/
def reportedSizeMB (bytes : Nat) : ℚ := (bytes : ℚ) / 1024 / 1024

/-- The disk after overwriting path `fp` with content `b` (line 46's
in-place `export`). -/
def writeDisk (disk : Disk) (fp : String) (b : Buffer) : Disk :=
  fun p => if p = fp then some b else disk p

/-- The body of the `try` block (lines 34–57) for one file: decode,
trim, export (overwriting the path), stat. Returns the updated disk and
`some report` on success, or the disk as left behind and `none` when any
step raised (the `except` path). -/
def processFile (env : Env) (disk : Disk) (filepath : String) :
    Disk × Option FileReport :=
  match disk filepath with
  | none => (disk, none)
  | some audio =>
    if env.decodeFails filepath then (disk, none)
    else
      let trimmed := trimBuffer audio
      if env.exportFails filepath then (disk, none)
      else
        let disk' : Disk := writeDisk disk filepath trimmed
        if env.statFails filepath then (disk', none)
        else
          (disk', some { originalDurationMs := audio.length,
                         newDurationMs := trimmed.length,
                         newSizeMB := reportedSizeMB (env.fileSizeBytes trimmed) })

/-- Whether one file's processing succeeds: the file exists and none of
decode, export, stat raise. Characterises `(processFile …).2.isSome`. -/
def fileOutcome (env : Env) (disk : Disk) (filepath : String) : Bool :=
  (disk filepath).isSome && !env.decodeFails filepath
    && !env.exportFails filepath && !env.statFails filepath

/-- Shorthand: outcome of the file named `n` in the music directory. -/
def outcomeFor (env : Env) (disk : Disk) (n : String) : Bool :=
  fileOutcome env disk (filepathOf n)

/-- Lines 29–61: the scan loop. Walks the directory listing; for each
eligible name runs `processFile`, appending the name to `files_processed`
on success and to `files_failed` on exception. -/
def runAux (env : Env) :
    List String → Disk → List String → List String →
      Disk × List String × List String
  | [], disk, ps, fs => (disk, ps, fs)
  | n :: rest, disk, ps, fs =>
    if eligible n then
      match processFile env disk (filepathOf n) with
      | (disk', some _) => runAux env rest disk' (ps ++ [n]) fs
      | (disk', none) => runAux env rest disk' ps (fs ++ [n])
    else runAux env rest disk ps fs

/-- The whole scan, starting from empty `files_processed`/`files_failed`. -/
def runTrimmer (env : Env) (disk : Disk) (listing : List String) :
    Disk × List String × List String :=
  runAux env listing disk [] []

/-- One line of the end-of-run summary (lines 63–76), as print events. -/
inductive Line where
  | separator
  | summaryHeader
  | processedCount (n : Nat)
  | failedCount (n : Nat)
  | trimmedHeader
  | failedHeader
  | entry (name : String)
  | doneLine
deriving DecidableEq

/-- Recogniser for the `"    - {f}"` filename lines of the summary. -/
def Line.isEntry : Line → Bool
  | .entry _ => true
  | _ => false

/-- Lines 63–76: the summary print sequence — counts, then the processed
names (with a header, only if any), then the failed names (with a header,
only if any), in list order. -/
def summaryLines (processed failed : List String) : List Line :=
  [Line.separator, Line.summaryHeader,
   Line.processedCount processed.length, Line.failedCount failed.length]
  ++ (if processed.isEmpty then [] else Line.trimmedHeader :: processed.map Line.entry)
  ++ (if failed.isEmpty then [] else Line.failedHeader :: failed.map Line.entry)
  ++ [Line.doneLine]

/-- Outcome of a whole invocation of the script. -/
structure RunOutput where
  exitCode : Nat
  preMessages : List String
  summaryShown : Bool
  finalDisk : Disk
  processed : List String
  failed : List String

/-- The whole script. Lines 10–15: if `pydub` cannot be imported, print
the two diagnostic lines and `sys.exit(1)`. Line 29: `os.listdir` may
itself raise (modelled by `listing = none`); that exception is uncaught,
so the interpreter aborts with a nonzero status before any file is
processed and no summary is printed. Otherwise the scan and the summary
run to completion with exit status 0. -/
def program (pydubAvailable : Bool) (listing : Option (List String))
    (env : Env) (disk : Disk) : RunOutput :=
  if !pydubAvailable then
    { exitCode := 1,
      preMessages := ["ERROR: pydub not installed", "Install with: pip install pydub"],
      summaryShown := false, finalDisk := disk, processed := [], failed := [] }
  else
    match listing with
    | none =>
      { exitCode := 1, preMessages := [], summaryShown := false,
        finalDisk := disk, processed := [], failed := [] }
    | some l =>
      let r := runTrimmer env disk l
      { exitCode := 0, preMessages := [], summaryShown := true,
        finalDisk := r.1, processed := r.2.1, failed := r.2.2 }

/-! ### Concrete fixtures used by the witness runs -/

/-- Fixture: no external call fails; the codec writes 1000 bytes per
millisecond of buffer. -/
def envOk : Env := ⟨fun _ => false, fun _ => false, fun _ => false, fun b => 1000 * b.length⟩

/-- Fixture: like `envOk` but the stat call on `music/a.mp3` raises. -/
def envStatFailA : Env :=
  ⟨fun _ => false, fun _ => false, fun p => p == "music/a.mp3", fun b => 1000 * b.length⟩

/-- Fixture: like `envOk` but the codec always writes 1 048 576 bytes. -/
def envMiB : Env := ⟨fun _ => false, fun _ => false, fun _ => false, fun _ => 1048576⟩

/-- Fixture: an empty music directory. -/
def diskEmpty : Disk := fun _ => none

/-- Fixture: `music/a.mp3` holds a 3 ms clip; nothing else exists. -/
def diskA : Disk := fun p => if p = "music/a.mp3" then some [0, 1, 2] else none

/-- Fixture: `music/good.mp3` holds a 3 ms clip; nothing else exists. -/
def diskGood : Disk := fun p => if p = "music/good.mp3" then some [0, 1, 2] else none

/-! ### Helper lemmas -/

/-- `processFile` never creates or deletes files: a path holds a file
afterwards iff it did before (the only write targets a path that already
held the decoded file). -/
theorem processFile_fst_isSome (env : Env) (disk : Disk) (fp q : String) :
    ((processFile env disk fp).1 q).isSome = (disk q).isSome := by
  unfold processFile
  cases h : disk fp with
  | none => rfl
  | some audio =>
    by_cases h1 : env.decodeFails fp <;> by_cases h2 : env.exportFails fp <;>
      by_cases h3 : env.statFails fp <;> by_cases hq : q = fp <;>
        simp [h1, h2, h3, hq, h, writeDisk]

/-- `processFile` succeeds exactly when `fileOutcome` says so. -/
theorem processFile_isSome_snd (env : Env) (disk : Disk) (fp : String) :
    (processFile env disk fp).2.isSome = fileOutcome env disk fp := by
  unfold processFile fileOutcome
  cases h : disk fp with
  | none => simp
  | some audio =>
    by_cases h1 : env.decodeFails fp <;> by_cases h2 : env.exportFails fp <;>
      by_cases h3 : env.statFails fp <;> simp [h1, h2, h3]

/-- `fileOutcome` only looks at whether the file exists, not its content. -/
theorem fileOutcome_congr (env : Env) (disk disk0 : Disk) (fp : String)
    (h : (disk fp).isSome = (disk0 fp).isSome) :
    fileOutcome env disk fp = fileOutcome env disk0 fp := by
  unfold fileOutcome; rw [h]

/-- Characterisation of the scan loop: relative to any disk that holds
files at the same paths as the starting disk `disk0`, the loop returns
`files_processed` = the eligible names whose processing succeeds and
`files_failed` = the eligible names whose processing fails, each appended
in listing order. -/
theorem runAux_spec (env : Env) (disk0 : Disk) (listing : List String) :
    ∀ (disk : Disk) (ps fs : List String),
      (∀ q, (disk q).isSome = (disk0 q).isSome) →
      (runAux env listing disk ps fs).2.1
          = ps ++ (listing.filter eligible).filter (fun n => outcomeFor env disk0 n)
        ∧ (runAux env listing disk ps fs).2.2
          = fs ++ (listing.filter eligible).filter (fun n => !outcomeFor env disk0 n) := by
  induction listing with
  | nil => intro disk ps fs _; simp [runAux]
  | cons n rest ih =>
    intro disk ps fs h
    have hinv : ∀ q, ((processFile env disk (filepathOf n)).1 q).isSome
        = (disk0 q).isSome := by
      intro q; rw [processFile_fst_isSome, h q]
    have hout : (processFile env disk (filepathOf n)).2.isSome
        = outcomeFor env disk0 n := by
      rw [processFile_isSome_snd,
        fileOutcome_congr env disk disk0 (filepathOf n) (h (filepathOf n))]
      rfl
    by_cases he : eligible n
    · cases hp : (processFile env disk (filepathOf n)).2 with
      | some r =>
        have ho : outcomeFor env disk0 n = true := by rw [← hout, hp]; rfl
        have hrun : runAux env (n :: rest) disk ps fs
            = runAux env rest (processFile env disk (filepathOf n)).1 (ps ++ [n]) fs := by
          show (if eligible n then _ else _) = _
          rw [if_pos he]
          cases hpp : processFile env disk (filepathOf n) with
          | mk d o => rw [hpp] at hp; cases hp; rfl
        obtain ⟨ha, hb⟩ := ih (processFile env disk (filepathOf n)).1 (ps ++ [n]) fs hinv
        rw [hrun, ha, hb]
        simp [List.filter_cons, he, ho]
      | none =>
        have ho : outcomeFor env disk0 n = false := by rw [← hout, hp]; rfl
        have hrun : runAux env (n :: rest) disk ps fs
            = runAux env rest (processFile env disk (filepathOf n)).1 ps (fs ++ [n]) := by
          show (if eligible n then _ else _) = _
          rw [if_pos he]
          cases hpp : processFile env disk (filepathOf n) with
          | mk d o => rw [hpp] at hp; cases hp; rfl
        obtain ⟨ha, hb⟩ := ih (processFile env disk (filepathOf n)).1 ps (fs ++ [n]) hinv
        rw [hrun, ha, hb]
        simp [List.filter_cons, he, ho]
    · have hrun : runAux env (n :: rest) disk ps fs = runAux env rest disk ps fs := by
        show (if eligible n then _ else _) = _
        rw [if_neg he]
      obtain ⟨ha, hb⟩ := ih disk ps fs h
      rw [hrun, ha, hb]
      simp [List.filter_cons, he]

/-- The processed list of a full run, in closed form. -/
theorem runTrimmer_processed (env : Env) (disk : Disk) (listing : List String) :
    (runTrimmer env disk listing).2.1
      = (listing.filter eligible).filter (fun n => outcomeFor env disk n) :=
  (runAux_spec env disk listing disk [] [] (fun _ => rfl)).1

/-- The failed list of a full run, in closed form. -/
theorem runTrimmer_failed (env : Env) (disk : Disk) (listing : List String) :
    (runTrimmer env disk listing).2.2
      = (listing.filter eligible).filter (fun n => !outcomeFor env disk n) :=
  (runAux_spec env disk listing disk [] [] (fun _ => rfl)).2

/-- Partition of counts over a Boolean filter. -/
theorem count_filter_partition (p : String → Bool) (l : List String) (a : String) :
    ((l.filter p).count a + (l.filter (fun x => !p x)).count a) = l.count a := by
  cases hpa : p a with
  | true =>
    have h0 : (l.filter (fun x => !p x)).count a = 0 := by
      refine List.count_eq_zero.2 fun hmem => ?_
      have hm := (List.mem_filter.1 hmem).2
      simp [hpa] at hm
    rw [List.count_filter hpa, h0, Nat.add_zero]
  | false =>
    have h0 : (l.filter p).count a = 0 := by
      refine List.count_eq_zero.2 fun hmem => ?_
      have hm := (List.mem_filter.1 hmem).2
      rw [hpa] at hm
      exact absurd hm (by decide)
    have h1 : (l.filter (fun x => !p x)).count a = l.count a :=
      List.count_filter (p := fun x => !p x) (by simp [hpa])
    rw [h0, h1, Nat.zero_add]

/-! ### Claims -/

/-- C1: an entry of the directory listing lands in one of the two result
lists iff its name ends with `.mp3` and does not start with `temp_`
(the `eligible` test, which reads only the name); ineligible names appear
in neither list. -/
theorem scan_processes_iff_eligible (env : Env) (disk : Disk)
    (listing : List String) (n : String) :
    (n ∈ (runTrimmer env disk listing).2.1 ∨ n ∈ (runTrimmer env disk listing).2.2)
      ↔ (n ∈ listing ∧ eligible n = true) := by
  rw [runTrimmer_processed, runTrimmer_failed]
  constructor
  · rintro (hm | hm) <;>
    · rw [List.mem_filter] at hm
      exact List.mem_filter.1 hm.1
  · rintro ⟨h1, h2⟩
    have hmem : n ∈ listing.filter eligible := List.mem_filter.2 ⟨h1, h2⟩
    by_cases ho : outcomeFor env disk n
    · exact Or.inl (List.mem_filter.2 ⟨hmem, by simp [ho]⟩)
    · exact Or.inr (List.mem_filter.2 ⟨hmem, by simp [ho]⟩)

/-- C1 witness: in the listing `["song.mp3", "temp_song.mp3", "notes.txt"]`
with an empty disk, `song.mp3` is scanned (it fails: no such file), while
the `temp_`-prefixed name and the non-`.mp3` name appear in neither list. -/
theorem scan_processes_iff_eligible_witness :
    (("song.mp3" ∈ (runTrimmer envOk diskEmpty
          ["song.mp3", "temp_song.mp3", "notes.txt"]).2.1
        ∨ "song.mp3" ∈ (runTrimmer envOk diskEmpty
          ["song.mp3", "temp_song.mp3", "notes.txt"]).2.2)
      ↔ ("song.mp3" ∈ ["song.mp3", "temp_song.mp3", "notes.txt"]
          ∧ eligible "song.mp3" = true)) :=
  scan_processes_iff_eligible envOk diskEmpty
    ["song.mp3", "temp_song.mp3", "notes.txt"] "song.mp3"

/-- C2: at the end of a run each scanned eligible filename is in exactly
one of `files_processed` and `files_failed`: the two lengths sum to the
number of eligible names scanned, per-name multiplicities add up, and any
eligible listed name is in one list and not the other. -/
theorem processed_failed_partition (env : Env) (disk : Disk) (listing : List String) :
    ((runTrimmer env disk listing).2.1.length + (runTrimmer env disk listing).2.2.length
        = (listing.filter eligible).length)
    ∧ (∀ n, (runTrimmer env disk listing).2.1.count n
          + (runTrimmer env disk listing).2.2.count n
          = (listing.filter eligible).count n)
    ∧ (∀ n, n ∈ listing.filter eligible →
        ((n ∈ (runTrimmer env disk listing).2.1 ∧ n ∉ (runTrimmer env disk listing).2.2)
          ∨ (n ∉ (runTrimmer env disk listing).2.1 ∧ n ∈ (runTrimmer env disk listing).2.2))) := by
  rw [runTrimmer_processed, runTrimmer_failed]
  refine ⟨?_, fun n => ?_, fun n hn => ?_⟩
  · exact ((listing.filter eligible).length_eq_length_filter_add
      (fun n => outcomeFor env disk n)).symm
  · exact count_filter_partition (fun n => outcomeFor env disk n) (listing.filter eligible) n
  · cases ho : outcomeFor env disk n with
    | true =>
      refine Or.inl ⟨List.mem_filter.2 ⟨hn, ho⟩, fun hc => ?_⟩
      have hcc : (!outcomeFor env disk n) = true := (List.mem_filter.1 hc).2
      rw [ho] at hcc
      exact absurd hcc (by decide)
    | false =>
      refine Or.inr ⟨fun hc => ?_, List.mem_filter.2 ⟨hn, by simp [ho]⟩⟩
      have hcc : outcomeFor env disk n = true := (List.mem_filter.1 hc).2
      rw [ho] at hcc
      exact absurd hcc (by decide)

/-- C2 witness: a concrete two-file run (one succeeds, one fails) with
counts `1 + 1 = 2` and each name in exactly one list. -/
theorem processed_failed_partition_witness :
    ((runTrimmer envOk diskA ["a.mp3", "b.mp3"]).2.1.length
      + (runTrimmer envOk diskA ["a.mp3", "b.mp3"]).2.2.length
      = ((["a.mp3", "b.mp3"] : List String).filter eligible).length) :=
  (processed_failed_partition envOk diskA ["a.mp3", "b.mp3"]).1

/-- C3: line 43's slice keeps the first `min(length, trim_duration)`
milliseconds; a buffer of at most `trim_duration` ms (including exactly
20 000 ms) is returned unchanged, and in that case a successful run of the
per-file pipeline reports a new duration equal to the original one. -/
theorem truncation_min_or_noop (audio : Buffer) :
    ((trimBuffer audio).length = min audio.length trim_duration)
    ∧ (audio.length ≤ trim_duration → trimBuffer audio = audio)
    ∧ (∀ (env : Env) (disk : Disk) (fp : String) (rep : FileReport),
        disk fp = some audio → audio.length ≤ trim_duration →
        (processFile env disk fp).2 = some rep →
        rep.newDurationMs = rep.originalDurationMs) := by
  refine ⟨?_, fun h => List.take_of_length_le h, fun env disk fp rep hd hlen hrep => ?_⟩
  · rw [trimBuffer, List.length_take, Nat.min_comm]
  · unfold processFile at hrep
    rw [hd] at hrep
    by_cases h1 : env.decodeFails fp <;> by_cases h2 : env.exportFails fp <;>
      by_cases h3 : env.statFails fp <;> simp [h1, h2, h3] at hrep
    rw [← hrep]
    show (trimBuffer audio).length = audio.length
    rw [trimBuffer, List.take_of_length_le hlen]

/-- C3 witness: a 3 ms buffer (and, via `List.replicate`, one of exactly
20 000 ms) is left unchanged by the slice, and a successful concrete run
reports equal old and new durations. -/
theorem truncation_min_or_noop_witness :
    (trimBuffer [0, 1, 2] = [0, 1, 2])
    ∧ (trimBuffer (List.replicate 20000 0) = List.replicate 20000 0)
    ∧ FileReport.newDurationMs
        { originalDurationMs := 3, newDurationMs := 3, newSizeMB := 0 }
      = FileReport.originalDurationMs
        { originalDurationMs := 3, newDurationMs := 3, newSizeMB := 0 } :=
  ⟨(truncation_min_or_noop [0, 1, 2]).2.1 (by decide),
   (truncation_min_or_noop (List.replicate 20000 0)).2.1
     (by rw [List.length_replicate]; decide),
   rfl⟩

/-- `trimBuffer` is idempotent: slicing an already-sliced buffer changes
nothing. -/
theorem trimBuffer_idem (audio : Buffer) :
    trimBuffer (trimBuffer audio) = trimBuffer audio := by
  show (audio.take trim_duration).take trim_duration = audio.take trim_duration
  rw [List.take_take, Nat.min_self]

/-- Closed form of a fully successful `processFile`: the path is
overwritten with the sliced buffer and the report is built from it. -/
theorem processFile_success_eq (env : Env) (disk : Disk) (fp : String) (audio : Buffer)
    (hd : disk fp = some audio)
    (h1 : env.decodeFails fp = false) (h2 : env.exportFails fp = false)
    (h3 : env.statFails fp = false) :
    processFile env disk fp
      = (writeDisk disk fp (trimBuffer audio),
         some { originalDurationMs := audio.length,
                newDurationMs := (trimBuffer audio).length,
                newSizeMB := reportedSizeMB (env.fileSizeBytes (trimBuffer audio)) }) := by
  unfold processFile
  rw [hd]
  simp [h1, h2, h3]

/-- C4: a per-file exception is caught for that file alone: the failing
name goes to `files_failed` (and not to `files_processed`), and every
other eligible listed file whose own steps succeed still ends up in
`files_processed`. -/
theorem per_file_failure_isolation (env : Env) (disk : Disk) (listing : List String)
    (m : String) (hm : m ∈ listing) (hem : eligible m = true)
    (hfail : outcomeFor env disk m = false) :
    m ∈ (runTrimmer env disk listing).2.2
    ∧ m ∉ (runTrimmer env disk listing).2.1
    ∧ (∀ n, n ∈ listing → eligible n = true → outcomeFor env disk n = true →
        n ∈ (runTrimmer env disk listing).2.1) := by
  rw [runTrimmer_processed, runTrimmer_failed]
  refine ⟨List.mem_filter.2 ⟨List.mem_filter.2 ⟨hm, hem⟩, by simp [hfail]⟩,
    fun hc => ?_,
    fun n hn hen hon => List.mem_filter.2 ⟨List.mem_filter.2 ⟨hn, hen⟩, hon⟩⟩
  have hcc : outcomeFor env disk m = true := (List.mem_filter.1 hc).2
  rw [hfail] at hcc
  exact absurd hcc (by decide)

/-- C4 witness: with only `music/good.mp3` on disk, the missing
`bad.mp3` fails while `good.mp3` is still processed. -/
theorem per_file_failure_isolation_witness :
    "bad.mp3" ∈ (runTrimmer envOk diskGood ["bad.mp3", "good.mp3"]).2.2
    ∧ "good.mp3" ∈ (runTrimmer envOk diskGood ["bad.mp3", "good.mp3"]).2.1 :=
  ⟨(per_file_failure_isolation envOk diskGood ["bad.mp3", "good.mp3"] "bad.mp3"
      (by decide) (by decide) (by decide)).1,
   (per_file_failure_isolation envOk diskGood ["bad.mp3", "good.mp3"] "bad.mp3"
      (by decide) (by decide) (by decide)).2.2 "good.mp3"
      (by decide) (by decide) (by decide)⟩

/-- C5: with pydub unavailable the program prints the fixed diagnostic
and the installation hint, exits with status 1, leaves the disk
untouched, processes no file, and prints no summary. -/
theorem import_guard_aborts (listing : Option (List String)) (env : Env) (disk : Disk) :
    (program false listing env disk).exitCode = 1
    ∧ (program false listing env disk).preMessages
        = ["ERROR: pydub not installed", "Install with: pip install pydub"]
    ∧ (program false listing env disk).finalDisk = disk
    ∧ (program false listing env disk).processed = []
    ∧ (program false listing env disk).failed = []
    ∧ (program false listing env disk).summaryShown = false :=
  ⟨rfl, rfl, rfl, rfl, rfl, rfl⟩

/-- C6: running the per-file pipeline a second time on the file the first
run just trimmed succeeds, reports a second-run duration equal to the
first-run duration (trimming a ≤ 20 s buffer is a no-op), and leaves the
disk exactly as the first run left it. -/
theorem trimming_idempotent (env : Env) (disk : Disk) (fp : String) (audio : Buffer)
    (hd : disk fp = some audio)
    (h1 : env.decodeFails fp = false) (h2 : env.exportFails fp = false)
    (h3 : env.statFails fp = false) :
    ∃ rep1 rep2 : FileReport,
      (processFile env disk fp).2 = some rep1
      ∧ (processFile env ((processFile env disk fp).1) fp).2 = some rep2
      ∧ rep2.originalDurationMs = rep1.newDurationMs
      ∧ rep2.newDurationMs = rep1.newDurationMs
      ∧ (processFile env ((processFile env disk fp).1) fp).1
          = (processFile env disk fp).1 := by
  have hA := processFile_success_eq env disk fp audio hd h1 h2 h3
  have hd1 : writeDisk disk fp (trimBuffer audio) fp = some (trimBuffer audio) := by
    unfold writeDisk
    simp
  have hB := processFile_success_eq env (writeDisk disk fp (trimBuffer audio)) fp
      (trimBuffer audio) hd1 h1 h2 h3
  refine ⟨{ originalDurationMs := audio.length,
            newDurationMs := (trimBuffer audio).length,
            newSizeMB := reportedSizeMB (env.fileSizeBytes (trimBuffer audio)) },
          { originalDurationMs := (trimBuffer audio).length,
            newDurationMs := (trimBuffer (trimBuffer audio)).length,
            newSizeMB := reportedSizeMB (env.fileSizeBytes (trimBuffer (trimBuffer audio))) },
          ?_, ?_, ?_, ?_, ?_⟩
  · rw [hA]
  · simp only [hA]
    rw [hB]
  · rfl
  · show (trimBuffer (trimBuffer audio)).length = (trimBuffer audio).length
    rw [trimBuffer_idem]
  · simp only [hA, hB]
    funext p
    by_cases hp : p = fp <;> simp [writeDisk, hp, trimBuffer_idem]

/-- C6 witness: the double run on the concrete 3 ms clip `music/a.mp3`. -/
theorem trimming_idempotent_witness :
    ∃ rep1 rep2 : FileReport,
      (processFile envOk diskA "music/a.mp3").2 = some rep1
      ∧ (processFile envOk ((processFile envOk diskA "music/a.mp3").1) "music/a.mp3").2
          = some rep2
      ∧ rep2.originalDurationMs = rep1.newDurationMs
      ∧ rep2.newDurationMs = rep1.newDurationMs
      ∧ (processFile envOk ((processFile envOk diskA "music/a.mp3").1) "music/a.mp3").1
          = (processFile envOk diskA "music/a.mp3").1 :=
  trimming_idempotent envOk diskA "music/a.mp3" [0, 1, 2] (by decide) rfl rfl rfl

/-- C7: the summary prints the processed count and the failed count; the
`"    - "` filename lines are exactly the processed names followed by the
failed names, each in append order, and each section header appears iff
its list is non-empty. -/
theorem summary_counts_and_order (p f : List String) :
    ((summaryLines p f).filter Line.isEntry = (p ++ f).map Line.entry)
    ∧ Line.processedCount p.length ∈ summaryLines p f
    ∧ Line.failedCount f.length ∈ summaryLines p f
    ∧ ((Line.trimmedHeader ∈ summaryLines p f) ↔ p ≠ [])
    ∧ ((Line.failedHeader ∈ summaryLines p f) ↔ f ≠ []) := by
  have hmap : ∀ l : List String,
      (l.map Line.entry).filter Line.isEntry = l.map Line.entry := by
    intro l
    induction l with
    | nil => rfl
    | cons a l ih => simp [Line.isEntry, ih]
  rcases p with _ | ⟨a, p'⟩ <;> rcases f with _ | ⟨b, f'⟩ <;>
    simp [summaryLines, List.filter_append, Line.isEntry, hmap]

/-- C9: if `os.listdir("music")` raises, the run aborts with a nonzero
status: no summary is printed, the disk is untouched, both result lists
are empty, and the codec-missing diagnostics are not printed either — the
failure is handled by neither documented error tier. -/
theorem listdir_failure_aborts (env : Env) (disk : Disk) :
    (program true none env disk).exitCode ≠ 0
    ∧ (program true none env disk).summaryShown = false
    ∧ (program true none env disk).finalDisk = disk
    ∧ (program true none env disk).processed = []
    ∧ (program true none env disk).failed = []
    ∧ (program true none env disk).preMessages = [] :=
  ⟨Nat.one_ne_zero, rfl, rfl, rfl, rfl, rfl⟩

/-- On a stat failure after a successful export, `processFile` reports
failure but has already overwritten the path with the trimmed buffer. -/
theorem processFile_statfail_eq (env : Env) (disk : Disk) (fp : String) (audio : Buffer)
    (hd : disk fp = some audio)
    (h1 : env.decodeFails fp = false) (h2 : env.exportFails fp = false)
    (h3 : env.statFails fp = true) :
    processFile env disk fp = (writeDisk disk fp (trimBuffer audio), none) := by
  unfold processFile
  rw [hd]
  simp [h1, h2, h3]

/-- C10: a name is recorded as processed only when decode, trim, export
and the following stat all succeed (`fileOutcome`); when the stat raises
after a successful export the name goes to `files_failed` even though the
path already holds the trimmed (overwritten) content. -/
theorem processed_only_after_stat (env : Env) (disk : Disk) (listing : List String)
    (n : String) (audio : Buffer)
    (hn : n ∈ listing) (hel : eligible n = true)
    (hd : disk (filepathOf n) = some audio)
    (h1 : env.decodeFails (filepathOf n) = false)
    (h2 : env.exportFails (filepathOf n) = false)
    (h3 : env.statFails (filepathOf n) = true) :
    (processFile env disk (filepathOf n)).2 = none
    ∧ (processFile env disk (filepathOf n)).1 (filepathOf n) = some (trimBuffer audio)
    ∧ n ∈ (runTrimmer env disk listing).2.2
    ∧ n ∉ (runTrimmer env disk listing).2.1
    ∧ (∀ (env' : Env) (disk' : Disk) (q : String),
        (processFile env' disk' q).2.isSome = fileOutcome env' disk' q) := by
  have hpf := processFile_statfail_eq env disk (filepathOf n) audio hd h1 h2 h3
  have hout : outcomeFor env disk n = false := by
    unfold outcomeFor fileOutcome
    rw [h3]
    simp
  obtain ⟨hmem, hnot, _⟩ := per_file_failure_isolation env disk listing n hn hel hout
  refine ⟨?_, ?_, hmem, hnot, fun env' disk' q => processFile_isSome_snd env' disk' q⟩
  · rw [hpf]
  · rw [hpf]
    simp [writeDisk]

/-- C10 witness: stat on `music/a.mp3` raises after export; the file is
recorded failed while the path already holds the trimmed clip. -/
theorem processed_only_after_stat_witness :
    (processFile envStatFailA diskA (filepathOf "a.mp3")).1 (filepathOf "a.mp3")
        = some (trimBuffer [0, 1, 2])
    ∧ "a.mp3" ∈ (runTrimmer envStatFailA diskA ["a.mp3"]).2.2 :=
  ⟨(processed_only_after_stat envStatFailA diskA ["a.mp3"] "a.mp3" [0, 1, 2]
      (by decide) (by decide) (by decide) rfl rfl (by decide)).2.1,
   (processed_only_after_stat envStatFailA diskA ["a.mp3"] "a.mp3" [0, 1, 2]
      (by decide) (by decide) (by decide) rfl rfl (by decide)).2.2.1⟩

/-- C8 counterexample: with the codec writing exactly 1 048 576 bytes,
a successful run on `music/a.mp3` records the size value 1, not the byte
count 1 048 576 — the recorded figure is not expressed in bytes. -/
theorem size_not_recorded_in_bytes :
    ((processFile envMiB diskA "music/a.mp3").2.map FileReport.newSizeMB
        = some (1 : ℚ))
    ∧ ((processFile envMiB diskA "music/a.mp3").2.map FileReport.newSizeMB
        ≠ some (1048576 : ℚ)) := by
  have h := processFile_success_eq envMiB diskA "music/a.mp3" [0, 1, 2]
    (by decide) rfl rfl rfl
  rw [h]
  constructor
  · show some (reportedSizeMB (envMiB.fileSizeBytes (trimBuffer [0, 1, 2]))) = some (1 : ℚ)
    have : reportedSizeMB 1048576 = (1 : ℚ) := by
      unfold reportedSizeMB
      norm_num
    rw [show envMiB.fileSizeBytes (trimBuffer [0, 1, 2]) = 1048576 from rfl, this]
  · show some (reportedSizeMB (envMiB.fileSizeBytes (trimBuffer [0, 1, 2]))) ≠ some (1048576 : ℚ)
    have : reportedSizeMB 1048576 = (1 : ℚ) := by
      unfold reportedSizeMB
      norm_num
    rw [show envMiB.fileSizeBytes (trimBuffer [0, 1, 2]) = 1048576 from rfl, this]
    intro hc
    have := Option.some.inj hc
    norm_num at this

/-- C8 amended: a successful per-file run records the new duration and a
size value obtained from the overwritten file after the export — the byte
count of the post-export content divided by 1024 twice (mebibytes, not
bytes). -/
theorem size_recorded_from_disk_after_overwrite (env : Env) (disk : Disk) (fp : String)
    (audio : Buffer) (hd : disk fp = some audio)
    (h1 : env.decodeFails fp = false) (h2 : env.exportFails fp = false)
    (h3 : env.statFails fp = false) :
    ∃ rep : FileReport,
      (processFile env disk fp).2 = some rep
      ∧ rep.newDurationMs = (trimBuffer audio).length
      ∧ (processFile env disk fp).1 fp = some (trimBuffer audio)
      ∧ rep.newSizeMB = reportedSizeMB (env.fileSizeBytes (trimBuffer audio)) := by
  rw [processFile_success_eq env disk fp audio hd h1 h2 h3]
  exact ⟨_, rfl, rfl, by simp [writeDisk], rfl⟩

/-- C8 amended witness: the concrete successful run on `music/a.mp3`. -/
theorem size_recorded_from_disk_after_overwrite_witness :
    ∃ rep : FileReport,
      (processFile envOk diskA "music/a.mp3").2 = some rep
      ∧ rep.newDurationMs = (trimBuffer [0, 1, 2]).length
      ∧ (processFile envOk diskA "music/a.mp3").1 "music/a.mp3"
          = some (trimBuffer [0, 1, 2])
      ∧ rep.newSizeMB = reportedSizeMB (envOk.fileSizeBytes (trimBuffer [0, 1, 2])) :=
  size_recorded_from_disk_after_overwrite envOk diskA "music/a.mp3" [0, 1, 2]
    (by decide) rfl rfl rfl

end TrimAudio
